import Mathlib

/-!
Verification of the RBAC authorization core of the ERP dashboard backend.

The definitions below are a shallow embedding of the Laravel backend's
authorization core: the role/permission data model (`Modules\System\Models`),
the mutation services (`RoleService`, `UserService`), the permission resolver
and its per-user cache (`PermissionService`), the audit-log recorder
(`AuditLogService`) and the audit middleware (`AuditLogger`), together with
the relevant fragment of the Next.js auth store (`useAuthStore`).

The relational store is modelled as an explicit `Db` value holding the rows of
the `permissions`, `roles` and `users` tables and the `role_user` and
`permission_role` pivot tables.  `DB::transaction` blocks whose body can throw
are modelled by `Except`: an error result leaves the caller with the original
`Db`, which is exactly the rollback semantics.  The permission cache is an
association list from user id to the cached list of permission names; a TTL
expiry is modelled by absence of the entry.
-/

namespace ERP

/-- A row of the `permissions` table: unique id, name, module grouping. -/
structure Permission where
  id : Nat
  name : String
  module : String
deriving DecidableEq

/-- A row of the `roles` table (`Modules\System\Models\Role`). -/
structure Role where
  id : Nat
  name : String
  description : Option String
  is_system : Bool
deriving DecidableEq

/-- A row of the `users` table, restricted to the fields the core touches. -/
structure UserRec where
  id : Nat
  name : String
  email : String
  password : String
  avatar : Option String
  is_active : Bool
deriving DecidableEq

/-- The relational store.  `roleUser` holds `(role_id, user_id)` pairs of the
`role_user` pivot table and `permissionRole` holds `(role_id, permission_id)`
pairs of the `permission_role` pivot table, matching the `belongsToMany`
declarations in the `Role` model.  `nextRoleId` is the auto-increment counter
of the `roles` table. -/
structure Db where
  permissions : List Permission
  roles : List Role
  users : List UserRec
  roleUser : List (Nat × Nat)
  permissionRole : List (Nat × Nat)
  nextRoleId : Nat
deriving DecidableEq

/-- Errors surfaced by the service layer: `ModelNotFoundException` from
`findOrFail`, and `ValidationException::withMessages` with its field-keyed
message map. -/
inductive ServiceError where
  | notFound : ServiceError
  | validation : List (String × List String) → ServiceError
deriving DecidableEq

/-- `Role::findOrFail`-style lookup, as an `Option`. -/
def Db.findRole (db : Db) (id : Nat) : Option Role :=
  db.roles.find? (fun r => r.id == id)

/-- `$role->users()->count()`: number of `role_user` rows for the role. -/
def Db.roleUserCount (db : Db) (roleId : Nat) : Nat :=
  (db.roleUser.filter (fun ru => ru.1 == roleId)).length

namespace RoleService

/-- `RoleService::hasAssignedUsers`: `findOrFail` the role, then test whether
its user count is positive. -/
def hasAssignedUsers (db : Db) (roleId : Nat) : Except ServiceError Bool :=
  match db.findRole roleId with
  | none => .error .notFound
  | some _ => .ok (decide (0 < db.roleUserCount roleId))

/-- `RoleService::deleteRole`: `findOrFail` the role, throw a validation error
when the role has assigned users, otherwise detach all permissions and delete
the role in one transaction.  The source performs no `is_system` test on this
path. -/
def deleteRole (db : Db) (id : Nat) : Except ServiceError Db :=
  match db.findRole id with
  | none => .error .notFound
  | some _ =>
    match hasAssignedUsers db id with
    | .error e => .error e
    | .ok true =>
        .error (.validation [("role", ["Cannot delete role that has assigned users."])])
    | .ok false =>
        .ok { db with
              permissionRole := db.permissionRole.filter (fun pr => pr.1 != id),
              roles := db.roles.filter (fun r => r.id != id) }

end RoleService

/-- A store with a single seeded system role (`is_system = true`) that has a
permission attached but no users attached. -/
def sysRoleDb : Db :=
  { permissions := [⟨1, "users.view", "users"⟩]
  , roles := [⟨1, "Admin", some "Full system access", true⟩]
  , users := []
  , roleUser := []
  , permissionRole := [(1, 1)]
  , nextRoleId := 2 }

/-- C1 counterexample: `deleteRole` on a role with `is_system = true` and zero
attached users does not fail — it succeeds and removes the role, so the claim
that deletion of a system role is always blocked is false on the code. -/
theorem C1_counterexample :
    (sysRoleDb.findRole 1).map Role.is_system = some true ∧
    sysRoleDb.roleUserCount 1 = 0 ∧
    RoleService.deleteRole sysRoleDb 1 =
      .ok { sysRoleDb with permissionRole := [], roles := [] } := by
  refine ⟨rfl, rfl, rfl⟩

/-- C1 (amended): `deleteRole` on an existing role fails with the
delete-blocking error exactly when the role has one or more attached users;
the `is_system` flag is never consulted, so a system role with zero attached
users is deleted (permission associations removed, role row removed). -/
theorem C1_deleteRole_blocks_only_on_users (db : Db) (id : Nat) (r : Role)
    (h : db.findRole id = some r) :
    (0 < db.roleUserCount id →
      RoleService.deleteRole db id =
        .error (.validation [("role", ["Cannot delete role that has assigned users."])])) ∧
    (db.roleUserCount id = 0 →
      RoleService.deleteRole db id =
        .ok { db with
              permissionRole := db.permissionRole.filter (fun pr => pr.1 != id),
              roles := db.roles.filter (fun r => r.id != id) }) := by
  constructor
  · intro hpos
    simp [RoleService.deleteRole, RoleService.hasAssignedUsers, h, hpos]
  · intro hzero
    simp [RoleService.deleteRole, RoleService.hasAssignedUsers, h, hzero]

/-- C1 witness: the amended theorem applied to the seeded system role with no
attached users — the deletion succeeds. -/
theorem C1_witness :
    RoleService.deleteRole sysRoleDb 1 =
      .ok { sysRoleDb with
            permissionRole := sysRoleDb.permissionRole.filter (fun pr => pr.1 != 1),
            roles := sysRoleDb.roles.filter (fun r => r.id != 1) } :=
  (C1_deleteRole_blocks_only_on_users sysRoleDb 1
    ⟨1, "Admin", some "Full system access", true⟩ rfl).2 rfl

namespace AuthStore

/-- `useAuthStore.hasPermission` (frontend auth store): membership of the
permission name in the store's cached permission list. -/
def hasPermission (storePermissions : List String) (permission : String) : Bool :=
  storePermissions.contains permission

/-- `useAuthStore.hasAnyPermission`: `permissions.some(p => userPermissions.includes(p))`. -/
def hasAnyPermission (storePermissions : List String) (permissions : List String) : Bool :=
  permissions.any (fun p => storePermissions.contains p)

/-- `useAuthStore.hasAllPermissions`: `permissions.every(p => userPermissions.includes(p))`. -/
def hasAllPermissions (storePermissions : List String) (permissions : List String) : Bool :=
  permissions.all (fun p => storePermissions.contains p)

end AuthStore

/-- C2 counterexample: on a user whose effective permission set is empty (and
equally on any other), `hasAnyPermission` with an empty required list returns
`false`, not `true`: JavaScript `[].some(...)` is `false`.  This refutes the
claim that both checks return `true` on the empty list. -/
theorem C2_counterexample :
    AuthStore.hasAnyPermission [] [] = false ∧
    AuthStore.hasAnyPermission ["users.view"] [] = false := ⟨rfl, rfl⟩

/-- C2 (amended): for every user, `hasAllPermissions(U, [])` returns `true`
(vacuous `every`), but `hasAnyPermission(U, [])` returns `false` (vacuous
`some`): the empty required-permission list is treated as "no permission
required" only by `hasAllPermissions`. -/
theorem C2_empty_required_list (storePermissions : List String) :
    AuthStore.hasAllPermissions storePermissions [] = true ∧
    AuthStore.hasAnyPermission storePermissions [] = false := ⟨rfl, rfl⟩

/-- `$user->roles()` / the roles attached to a user through `role_user`. -/
def Db.rolesOfUser (db : Db) (userId : Nat) : List Role :=
  db.roles.filter (fun r => db.roleUser.contains (r.id, userId))

/-- `$role->permissions()` / the permissions attached to a role through
`permission_role`. -/
def Db.permissionsOfRole (db : Db) (roleId : Nat) : List Permission :=
  db.permissions.filter (fun p => db.permissionRole.contains (roleId, p.id))

/-- One step of Laravel's `Collection::unique('id')`: keep the element when no
already-kept element carries the same id. -/
def uniqueStep (acc : List Permission) (p : Permission) : List Permission :=
  if acc.any (fun q => q.id == p.id) then acc else acc ++ [p]

/-- Laravel's `Collection::unique('id')` (first occurrence wins). -/
def uniqueById (ps : List Permission) : List Permission :=
  ps.foldl uniqueStep []

namespace PermissionService

/-- `PermissionService::getUserPermissions` (and, identically,
`User::getAllPermissions`): load the user's roles with their permissions,
flatten the permission lists, deduplicate by permission id. -/
def getUserPermissions (db : Db) (userId : Nat) : List Permission :=
  uniqueById (((db.rolesOfUser userId).map (fun r => db.permissionsOfRole r.id)).flatten)

end PermissionService

/-- The permission cache: user id to cached list of permission names
(`user_permissions:{id}`).  An expired or absent entry is absence. -/
abbrev PermCache := List (Nat × List String)

/-- `Cache::get` on the permission cache: first entry with the user's key. -/
def cacheGet : PermCache → Nat → Option (List String)
  | [], _ => none
  | e :: t, u => if e.1 == u then some e.2 else cacheGet t u

namespace PermissionService

/-- `PermissionService::userHasPermission`: `Cache::remember` the resolved
permission names for the user, then test membership.  Returns the answer and
the cache after the call. -/
def userHasPermission (db : Db) (cache : PermCache) (userId : Nat)
    (permission : String) : Bool × PermCache :=
  match cacheGet cache userId with
  | some names => (names.contains permission, cache)
  | none =>
      let names := (getUserPermissions db userId).map Permission.name
      (names.contains permission, (userId, names) :: cache)

/-- `PermissionService::clearUserPermissionsCache`: `Cache::forget` on the
user's key. -/
def clearUserPermissionsCache (cache : PermCache) (userId : Nat) : PermCache :=
  cache.filter (fun e => e.1 != userId)

end PermissionService

/-- The user ids the `role_user` pivot currently attaches to the role, as read
by `clearRoleUsersPermissionsCache`. -/
def Db.roleUserIds (db : Db) (roleId : Nat) : List Nat :=
  (db.roleUser.filter (fun ru => ru.1 == roleId)).map (fun ru => ru.2)

namespace PermissionService

/-- `PermissionService::clearRoleUsersPermissionsCache`: read the user ids
attached to the role from `role_user`, then forget each user's cache entry. -/
def clearRoleUsersPermissionsCache (db : Db) (cache : PermCache) (roleId : Nat) :
    PermCache :=
  (db.roleUserIds roleId).foldl clearUserPermissionsCache cache

end PermissionService

/-- Membership of an id in the result of the dedup fold: an id is kept iff it
occurs in the accumulator or in the remaining input. -/
theorem mem_id_foldl_uniqueStep (l : List Permission) (acc : List Permission) (pid : Nat) :
    pid ∈ (l.foldl uniqueStep acc).map Permission.id ↔
      pid ∈ acc.map Permission.id ∨ pid ∈ l.map Permission.id := by
  induction l generalizing acc with
  | nil => simp
  | cons p t ih =>
    rw [List.foldl_cons, ih]
    cases h : acc.any (fun q => q.id == p.id) with
    | true =>
      have hp : p.id ∈ acc.map Permission.id := by
        rcases List.any_eq_true.mp h with ⟨q, hq, hbeq⟩
        exact List.mem_map.mpr ⟨q, hq, eq_of_beq hbeq⟩
      rw [show uniqueStep acc p = acc from by simp [uniqueStep, h]]
      simp only [List.map_cons, List.mem_cons]
      constructor
      · rintro (h1 | h1)
        · exact Or.inl h1
        · exact Or.inr (Or.inr h1)
      · rintro (h1 | h1 | h1)
        · exact Or.inl h1
        · exact Or.inl (h1 ▸ hp)
        · exact Or.inr h1
    | false =>
      rw [show uniqueStep acc p = acc ++ [p] from by simp [uniqueStep, h]]
      simp only [List.map_append, List.mem_append, List.map_cons, List.map_nil,
        List.mem_cons, List.not_mem_nil, or_false, List.mem_singleton]
      exact or_assoc

/-- The dedup fold preserves distinctness of the kept ids. -/
theorem nodup_id_foldl_uniqueStep (l : List Permission) (acc : List Permission)
    (hacc : (acc.map Permission.id).Nodup) :
    ((l.foldl uniqueStep acc).map Permission.id).Nodup := by
  induction l generalizing acc with
  | nil => simpa using hacc
  | cons p t ih =>
    rw [List.foldl_cons]
    apply ih
    cases h : acc.any (fun q => q.id == p.id) with
    | true =>
      rw [show uniqueStep acc p = acc from by simp [uniqueStep, h]]
      exact hacc
    | false =>
      have hnot : p.id ∉ acc.map Permission.id := by
        intro hmem
        rcases List.mem_map.mp hmem with ⟨q, hq, hqe⟩
        exact (List.any_eq_false.mp h q hq) (beq_iff_eq.mpr hqe)
      rw [show uniqueStep acc p = acc ++ [p] from by simp [uniqueStep, h]]
      simp [List.nodup_append, hacc, hnot]

/-- C6: the permission resolver computes exactly the union of the permission
sets of the user's roles, with duplicates collapsed by permission id, and a
user with zero attached roles resolves to the empty set. -/
theorem C6_resolver_is_union (db : Db) (userId : Nat) :
    (∀ pid : Nat,
      pid ∈ (PermissionService.getUserPermissions db userId).map Permission.id ↔
        ∃ r ∈ db.rolesOfUser userId,
          pid ∈ (db.permissionsOfRole r.id).map Permission.id) ∧
    ((PermissionService.getUserPermissions db userId).map Permission.id).Nodup ∧
    (db.rolesOfUser userId = [] → PermissionService.getUserPermissions db userId = []) := by
  refine ⟨fun pid => ?_, ?_, fun h => ?_⟩
  · unfold PermissionService.getUserPermissions uniqueById
    rw [mem_id_foldl_uniqueStep]
    simp only [List.map_nil, List.not_mem_nil, false_or]
    constructor
    · intro hmem
      rcases List.mem_map.mp hmem with ⟨p, hp, hpe⟩
      rcases List.mem_flatten.mp hp with ⟨sub, hsub, hps⟩
      rcases List.mem_map.mp hsub with ⟨r, hr, rfl⟩
      exact ⟨r, hr, List.mem_map.mpr ⟨p, hps, hpe⟩⟩
    · rintro ⟨r, hr, hmem⟩
      rcases List.mem_map.mp hmem with ⟨p, hp, hpe⟩
      exact List.mem_map.mpr
        ⟨p, List.mem_flatten.mpr
          ⟨db.permissionsOfRole r.id, List.mem_map.mpr ⟨r, hr, rfl⟩, hp⟩, hpe⟩
  · exact nodup_id_foldl_uniqueStep _ _ (by simp)
  · unfold PermissionService.getUserPermissions
    rw [h]
    rfl

/-- A store with two roles: role 1 grants permissions 1 and 2, role 2 grants
permission 2; user 1 holds both roles, user 7 holds none. -/
def unionDb : Db :=
  { permissions := [⟨1, "users.view", "users"⟩, ⟨2, "reports.view", "reports"⟩]
  , roles := [⟨1, "viewer", none, false⟩, ⟨2, "reporter", none, false⟩]
  , users := [⟨1, "A", "a@x.com", "h", none, true⟩]
  , roleUser := [(1, 1), (2, 1)]
  , permissionRole := [(1, 1), (1, 2), (2, 2)]
  , nextRoleId := 3 }

/-- C6 witness: the resolver theorem instantiated on `unionDb` — the user with
no roles resolves to the empty set, and the resolved ids of user 1 are
duplicate-free. -/
theorem C6_witness :
    PermissionService.getUserPermissions unionDb 7 = [] ∧
    ((PermissionService.getUserPermissions unionDb 1).map Permission.id).Nodup :=
  ⟨(C6_resolver_is_union unionDb 7).2.2 rfl, (C6_resolver_is_union unionDb 1).2.1⟩

/-- Forgetting one user's cache entry removes exactly that key. -/
theorem cacheGet_clearUserPermissionsCache (cache : PermCache) (i u : Nat) :
    cacheGet (PermissionService.clearUserPermissionsCache cache i) u
      = if u = i then none else cacheGet cache u := by
  induction cache with
  | nil => simp [PermissionService.clearUserPermissionsCache, cacheGet]
  | cons e t ih =>
    by_cases hki : e.1 = i
    · rw [show PermissionService.clearUserPermissionsCache (e :: t) i
            = PermissionService.clearUserPermissionsCache t i from by
          simp [PermissionService.clearUserPermissionsCache, hki]]
      rw [ih]
      by_cases hui : u = i
      · simp [hui]
      · have he : (e.1 == u) = false := by
          rw [beq_eq_false_iff_ne]
          omega
        simp [cacheGet, hui, he]
    · rw [show PermissionService.clearUserPermissionsCache (e :: t) i
            = e :: PermissionService.clearUserPermissionsCache t i from by
          simp [PermissionService.clearUserPermissionsCache, hki]]
      by_cases heu : e.1 = u
      · have hui : ¬(u = i) := by omega
        simp [cacheGet, heu, hui]
      · have he : (e.1 == u) = false := by simpa using heu
        simp [cacheGet, he, ih]

/-- Folding the per-user eviction over a list of user ids evicts exactly those
ids. -/
theorem cacheGet_foldl_clear (ids : List Nat) (cache : PermCache) (u : Nat) :
    cacheGet (ids.foldl PermissionService.clearUserPermissionsCache cache) u
      = if u ∈ ids then none else cacheGet cache u := by
  induction ids generalizing cache with
  | nil => simp
  | cons i t ih =>
    rw [List.foldl_cons, ih]
    by_cases hu : u ∈ t
    · simp [hu]
    · by_cases hui : u = i
      · simp [hu, hui, cacheGet_clearUserPermissionsCache]
      · simp [hu, hui, cacheGet_clearUserPermissionsCache, List.mem_cons]

/-- C10: `clearRoleUsersPermissionsCache` evicts exactly the cache entries of
the users attached to the role in the `role_user` pivot at the moment of the
call, and leaves every other user's entry untouched — in particular a user not
attached at call time (e.g. one detached earlier in the same operation) keeps
whatever cached permission set they had. -/
theorem C10_clear_uses_membership_at_call (db : Db) (cache : PermCache) (roleId u : Nat) :
    cacheGet (PermissionService.clearRoleUsersPermissionsCache db cache roleId) u
      = if u ∈ db.roleUserIds roleId then none else cacheGet cache u :=
  cacheGet_foldl_clear (db.roleUserIds roleId) cache u

namespace RoleService

/-- `RoleService::validatePermissionIds`: an empty list passes; otherwise the
count of `permissions` rows whose id is in the list must equal the length of
the list, else a validation error with a fixed message is thrown. -/
def validatePermissionIds (db : Db) (permissionIds : List Nat) :
    Except ServiceError Unit :=
  if permissionIds.isEmpty then .ok ()
  else if (db.permissions.filter (fun p => permissionIds.contains p.id)).length
            != permissionIds.length then
    .error (.validation [("permission_ids", ["One or more permission IDs are invalid."])])
  else .ok ()

/-- Laravel's `sync` on the role's `permissions()` relation: detach every
pivot row of the role, attach one row per id in the new list. -/
def syncRolePermissions (db : Db) (roleId : Nat) (permissionIds : List Nat) : Db :=
  { db with permissionRole :=
      (db.permissionRole.filter (fun pr => pr.1 != roleId))
        ++ permissionIds.map (fun pid => (roleId, pid)) }

/-- `RoleService::assignPermissions`: `findOrFail` the role, validate all ids,
then `sync` the role's permission set (full replace). -/
def assignPermissions (db : Db) (roleId : Nat) (permissionIds : List Nat) :
    Except ServiceError Db :=
  match db.findRole roleId with
  | none => .error .notFound
  | some _ =>
    match validatePermissionIds db permissionIds with
    | .error e => .error e
    | .ok _ => .ok (syncRolePermissions db roleId permissionIds)

/-- Input shape of `RoleService::createRole`. -/
structure CreateRoleData where
  name : String
  description : Option String := none
  is_system : Option Bool := none
  permission_ids : List Nat := []

/-- `RoleService::createRole`: throw on a duplicate name (exact string match),
then inside one transaction create the role and, when `permission_ids` is
non-empty, validate them and `sync` them; a validation failure inside the
transaction rolls everything back, which the `Except` error models by leaving
the caller with the original `Db`. -/
def createRole (db : Db) (data : CreateRoleData) : Except ServiceError (Db × Role) :=
  if db.roles.any (fun r => r.name == data.name) then
    .error (.validation [("name", ["A role with this name already exists."])])
  else
    let role : Role :=
      { id := db.nextRoleId, name := data.name,
        description := data.description,
        is_system := data.is_system.getD false }
    let db1 : Db := { db with roles := db.roles ++ [role], nextRoleId := db.nextRoleId + 1 }
    if data.permission_ids.isEmpty then
      .ok (db1, role)
    else
      match validatePermissionIds db1 data.permission_ids with
      | .error e => .error e
      | .ok _ => .ok (syncRolePermissions db1 role.id data.permission_ids, role)

end RoleService

namespace RoleController

/-- `RoleController::assignPermissions`: call the service, and on success clear
the permission cache of every user holding the role before returning. -/
def assignPermissions (db : Db) (cache : PermCache) (roleId : Nat)
    (permissionIds : List Nat) : Except ServiceError (Db × PermCache) :=
  match RoleService.assignPermissions db roleId permissionIds with
  | .error e => .error e
  | .ok db' => .ok (db', PermissionService.clearRoleUsersPermissionsCache db' cache roleId)

end RoleController

/-- C4: after a successful `assignPermissions(roleId, newSet)` call through the
controller, every user attached to the role answers its next `hasPermission`
query from a fresh resolution of the new store — the user's cache entry was
evicted before the call returned, so the cached (possibly stale) set cannot be
consulted. -/
theorem C4_assignPermissions_cache_coherent (db : Db) (cache : PermCache)
    (roleId : Nat) (permissionIds : List Nat) (db' : Db) (cache' : PermCache)
    (h : RoleController.assignPermissions db cache roleId permissionIds = .ok (db', cache')) :
    ∀ u, (roleId, u) ∈ db'.roleUser → ∀ p,
      (PermissionService.userHasPermission db' cache' u p).1
        = ((PermissionService.getUserPermissions db' u).map Permission.name).contains p := by
  intro u hu p
  have hc : cache' = PermissionService.clearRoleUsersPermissionsCache db' cache roleId := by
    unfold RoleController.assignPermissions at h
    cases hs : RoleService.assignPermissions db roleId permissionIds with
    | error e => rw [hs] at h; cases h
    | ok d => rw [hs] at h; cases h; rfl
  have hmem : u ∈ db'.roleUserIds roleId := by
    unfold Db.roleUserIds
    exact List.mem_map.mpr ⟨(roleId, u), List.mem_filter.mpr ⟨hu, by simp⟩, rfl⟩
  have hget : cacheGet cache' u = none := by
    rw [hc]
    unfold PermissionService.clearRoleUsersPermissionsCache
    rw [cacheGet_foldl_clear, if_pos hmem]
  unfold PermissionService.userHasPermission
  rw [hget]

/-- Store for the C4 witness: role 1 currently grants permission 1 and is held
by user 1. -/
def c4Db : Db :=
  { permissions := [⟨1, "old.perm", "m"⟩, ⟨2, "new.perm", "m"⟩]
  , roles := [⟨1, "editor", none, false⟩]
  , users := [⟨1, "A", "a@x.com", "h", none, true⟩]
  , roleUser := [(1, 1)]
  , permissionRole := [(1, 1)]
  , nextRoleId := 2 }

/-- Store after `assignPermissions(1, [2])` succeeds on `c4Db`. -/
def c4Db' : Db := { c4Db with permissionRole := [(1, 2)] }

/-- C4 witness: on `c4Db` with a stale cache entry for user 1, the controller
call replaces role 1's permission set with `{new.perm}` and user 1's next
check is answered from the fresh resolution (and grants the new permission). -/
theorem C4_witness :
    (PermissionService.userHasPermission c4Db' [] 1 "new.perm").1
        = ((PermissionService.getUserPermissions c4Db' 1).map Permission.name).contains "new.perm" ∧
    (PermissionService.userHasPermission c4Db' [] 1 "new.perm").1 = true :=
  ⟨C4_assignPermissions_cache_coherent c4Db [(1, ["old.perm"])] 1 [2] c4Db' [] rfl
      1 (by decide) "new.perm",
   by decide⟩

/-- A store holding one permission (id 1) and no roles. -/
def c7Db : Db :=
  { permissions := [⟨1, "users.view", "users"⟩]
  , roles := []
  , users := []
  , roleUser := []
  , permissionRole := []
  , nextRoleId := 1 }

/-- C7 counterexample: `createRole` with a non-existent permission id 5 and
with a non-existent permission id 7 produce the identical error value — a
fixed message that names no id — so the failure does not "list the bad ids"
as the claim states. -/
theorem C7_counterexample :
    RoleService.createRole c7Db { name := "auditor", permission_ids := [5] } =
      .error (.validation [("permission_ids", ["One or more permission IDs are invalid."])]) ∧
    RoleService.createRole c7Db { name := "auditor", permission_ids := [7] } =
      .error (.validation [("permission_ids", ["One or more permission IDs are invalid."])]) :=
  ⟨rfl, rfl⟩

/-- C7 (amended): `createRole` fails with the duplicate-name error when a role
with exactly that name (case-sensitive string equality) exists; when
`permissionIds` are given and the count of existing rows among them differs
from their number it fails with the invalid-permission-reference error, whose
message is fixed and does not identify the bad ids; in both failure cases the
transaction yields no new store, so no role row is persisted. -/
theorem C7_createRole_validations (db : Db) (data : RoleService.CreateRoleData) :
    ((∃ r ∈ db.roles, r.name = data.name) →
      RoleService.createRole db data =
        .error (.validation [("name", ["A role with this name already exists."])])) ∧
    ((¬ ∃ r ∈ db.roles, r.name = data.name) →
      data.permission_ids ≠ [] →
      (db.permissions.filter (fun p => data.permission_ids.contains p.id)).length
          ≠ data.permission_ids.length →
      RoleService.createRole db data =
        .error (.validation [("permission_ids", ["One or more permission IDs are invalid."])])) := by
  constructor
  · rintro ⟨r, hr, hname⟩
    have hany : db.roles.any (fun r => r.name == data.name) = true :=
      List.any_eq_true.mpr ⟨r, hr, beq_iff_eq.mpr hname⟩
    unfold RoleService.createRole
    rw [hany]
    rfl
  · intro hne hids hcount
    have hany : db.roles.any (fun r => r.name == data.name) = false :=
      List.any_eq_false.mpr (fun r hr hbeq => hne ⟨r, hr, eq_of_beq hbeq⟩)
    have hempty : data.permission_ids.isEmpty = false := by
      cases hp : data.permission_ids with
      | nil => exact absurd hp hids
      | cons a t => rfl
    unfold RoleService.createRole
    rw [hany]
    simp only [Bool.false_eq_true, if_false, hempty]
    unfold RoleService.validatePermissionIds
    rw [hempty]
    have hbne :
        ((db.permissions.filter (fun p => data.permission_ids.contains p.id)).length
          != data.permission_ids.length) = true := by
      simpa [bne_iff_ne] using hcount
    simp only [Bool.false_eq_true, if_false, hbne, if_true]

/-- A store that already holds a role named `auditor`. -/
def c7DupDb : Db := { c7Db with roles := [⟨1, "auditor", none, false⟩], nextRoleId := 2 }

/-- C7 witness: the amended theorem instantiated — creating `auditor` again
fails with the duplicate-name error, and creating `viewer` with the bad
permission id 5 fails with the fixed invalid-permission-reference error. -/
theorem C7_witness :
    RoleService.createRole c7DupDb { name := "auditor" } =
      .error (.validation [("name", ["A role with this name already exists."])]) ∧
    RoleService.createRole c7Db { name := "viewer", permission_ids := [5] } =
      .error (.validation [("permission_ids", ["One or more permission IDs are invalid."])]) :=
  ⟨(C7_createRole_validations c7DupDb { name := "auditor" }).1
      ⟨⟨1, "auditor", none, false⟩, by decide, rfl⟩,
   (C7_createRole_validations c7Db { name := "viewer", permission_ids := [5] }).2
      (by decide) (by decide) (by decide)⟩

/-- `Hash::make`, modelled as an injective tagging function: the concrete hash
is outside the core. -/
def hashMake (password : String) : String := "$2y$12$" ++ password

namespace UserService

/-- The shape of the `updateUser` patch: `none` is an absent key.  `avatar`
uses `array_key_exists` in the source, so an explicitly-null avatar is
`some none`. -/
structure UpdateUserData where
  name : Option String := none
  email : Option String := none
  password : Option String := none
  avatar : Option (Option String) := none
  is_active : Option Bool := none
  role_ids : Option (List Nat) := none

/-- The `$updateData` assignment of `UserService::updateUser`: each present
field overwrites the row's field, the password through `Hash::make`. -/
def applyUserUpdate (u : UserRec) (data : UpdateUserData) : UserRec :=
  { u with
    name := data.name.getD u.name,
    email := data.email.getD u.email,
    password := (data.password.map hashMake).getD u.password,
    avatar := data.avatar.getD u.avatar,
    is_active := data.is_active.getD u.is_active }

/-- `UserService::updateUser`: `findOrFail` the user; when a non-empty new
email differs from the current one, re-check uniqueness excluding self; then
inside one transaction apply the field updates and, when `role_ids` is
present, `sync` the user's role membership (full replace).  No permission
cache invalidation happens anywhere on this path in the source. -/
def updateUser (db : Db) (id : Nat) (data : UpdateUserData) : Except ServiceError Db :=
  match db.users.find? (fun u => u.id == id) with
  | none => .error .notFound
  | some user =>
    if (match data.email with
        | some e => e != "" && e != user.email
            && db.users.any (fun u => u.email == e && u.id != id)
        | none => false) then
      .error (.validation [("email", ["The email has already been taken."])])
    else
      .ok { db with
        users := db.users.map (fun u => if u.id == id then applyUserUpdate u data else u),
        roleUser :=
          match data.role_ids with
          | none => db.roleUser
          | some rids =>
              (db.roleUser.filter (fun ru => ru.2 != id)) ++ rids.map (fun rid => (rid, id)) }

end UserService

namespace UserController

/-- `UserController::update`: wrap the service result.  Neither the controller
nor the service calls into `PermissionService`'s cache clearing on this path,
so the permission cache passes through unchanged. -/
def update (db : Db) (cache : PermCache) (id : Nat) (data : UserService.UpdateUserData) :
    Except ServiceError (Db × PermCache) :=
  match UserService.updateUser db id data with
  | .error e => .error e
  | .ok db' => .ok (db', cache)

end UserController

/-- Store for C3: user 1 holds role 1 (granting `users.view`); role 2 grants
`reports.view`. -/
def c3Db : Db :=
  { permissions := [⟨1, "users.view", "users"⟩, ⟨2, "reports.view", "reports"⟩]
  , roles := [⟨1, "viewer", none, false⟩, ⟨2, "reporter", none, false⟩]
  , users := [⟨1, "A", "a@x.com", "h", none, true⟩]
  , roleUser := [(1, 1)]
  , permissionRole := [(1, 1), (2, 2)]
  , nextRoleId := 3 }

/-- The permission cache holding user 1's resolution under their old role. -/
def c3Cache : PermCache := [(1, ["users.view"])]

/-- `c3Db` after `updateUser(1, {role_ids: [2]})`: membership fully replaced. -/
def c3Db' : Db := { c3Db with roleUser := [(2, 1)] }

/-- C3: updating user 1 with `role_ids = [2]` fully replaces their role
membership, but the call returns with the permission cache untouched — no
`PermissionCache.invalidate(1)` is triggered — so the user's next permission
check reads the stale cached set and denies `reports.view`, a permission the
new membership grants.  This exhibits the missing invalidation the claim
requires. -/
theorem C3_updateUser_no_cache_invalidation :
    UserController.update c3Db c3Cache 1 { role_ids := some [2] } = .ok (c3Db', c3Cache) ∧
    ((PermissionService.getUserPermissions c3Db' 1).map Permission.name) = ["reports.view"] ∧
    (PermissionService.userHasPermission c3Db' c3Cache 1 "reports.view").1 = false :=
  ⟨rfl, rfl, rfl⟩

/-- A PHP value as it appears in the old/new value maps: null, scalar, or a
nested array (map). -/
inductive Val where
  | vnull : Val
  | vstr : String → Val
  | vint : Int → Val
  | vbool : Bool → Val
  | vmap : List (String × Val) → Val

/-- PHP `isset` on a map entry is false exactly on null. -/
def Val.isNull : Val → Bool
  | .vnull => true
  | _ => false

/-- The fixed `$sensitiveFields` list shared verbatim by
`AuditLogService::sanitizeValues` and `AuditLogger::sanitizeRequestData`. -/
def sensitiveFields : List String :=
  ["password", "password_confirmation", "current_password", "new_password",
   "token", "api_token", "remember_token", "secret"]

/-- One iteration of the sanitization loop:
`if (isset($values[$field])) { $values[$field] = '[REDACTED]'; }`. -/
def redactField (values : List (String × Val)) (field : String) : List (String × Val) :=
  values.map (fun e => if e.1 == field && !e.2.isNull then (e.1, Val.vstr "[REDACTED]") else e)

namespace AuditLogService

/-- `AuditLogService::sanitizeValues`: run the redaction step for each of the
eight sensitive field names. -/
def sanitizeValues (values : List (String × Val)) : List (String × Val) :=
  sensitiveFields.foldl redactField values

end AuditLogService

/-- An `audit_logs` row (`Modules\System\Models\AuditLog`). -/
structure AuditLog where
  user_id : Option Nat
  action : String
  resource : String
  resource_id : Option Int
  old_values : Option (List (String × Val))
  new_values : Option (List (String × Val))
  ip_address : String
  user_agent : String

/-- An incoming HTTP request as the core sees it: the authenticated principal
(or none), method, path, route parameters, the validated body
(`$request->all()`), and the client ip / user agent. -/
structure HttpRequest where
  user : Option Nat
  method : String
  path : String
  routeParams : List (String × Int)
  body : List (String × Val)
  ip : String
  userAgent : String

/-- The optional context map passed to `AuditLogService::log`. -/
structure LogData where
  user_id : Option Nat := none
  old_values : Option (List (String × Val)) := none
  new_values : Option (List (String × Val)) := none
  ip_address : Option String := none
  user_agent : Option String := none

namespace AuditLogService

/-- `AuditLogService::log`: construct and persist one entry, defaulting the
actor to the request's authenticated principal and ip/user-agent to the
request's.  Note this method itself applies no redaction. -/
def log (req : HttpRequest) (action : String) (resource : String)
    (resourceId : Option Int) (data : LogData) : AuditLog :=
  { user_id := data.user_id.orElse (fun _ => req.user)
  , action := action
  , resource := resource
  , resource_id := resourceId
  , old_values := data.old_values
  , new_values := data.new_values
  , ip_address := data.ip_address.getD req.ip
  , user_agent := data.user_agent.getD req.userAgent }

/-- `AuditLogService::logUpdate`: sanitize the old and the new value map
independently, then append through `log`. -/
def logUpdate (req : HttpRequest) (resource : String) (resourceId : Int)
    (oldValues newValues : List (String × Val)) : AuditLog :=
  log req "update" resource (some resourceId)
    { old_values := some (sanitizeValues oldValues)
    , new_values := some (sanitizeValues newValues)
    , ip_address := some req.ip
    , user_agent := some req.userAgent }

end AuditLogService

/-- Running the per-field redaction loop over any field list equals one pass
over the entries replacing the non-null entries whose key is in the list. -/
theorem foldl_redactField (fields : List String) (values : List (String × Val)) :
    fields.foldl redactField values
      = values.map (fun e =>
          if fields.contains e.1 && !e.2.isNull then (e.1, Val.vstr "[REDACTED]") else e) := by
  induction fields generalizing values with
  | nil =>
    simp [List.foldl_nil]
  | cons f fs ih =>
    rw [List.foldl_cons, ih]
    unfold redactField
    rw [List.map_map]
    apply List.map_congr_left
    intro e _
    cases hb : (e.1 == f) with
    | false =>
      simp only [Function.comp_apply, hb, Bool.false_and, Bool.false_eq_true, if_false,
        List.contains_cons, Bool.or_eq_true]
      cases hn : e.2.isNull <;> cases hc : fs.contains e.1 <;> simp [hb, hc, hn]
    | true =>
      cases hn : e.2.isNull with
      | true =>
        simp [hb, hn, List.contains_cons]
      | false =>
        simp only [Function.comp_apply, hb, hn, Bool.not_false, Bool.and_self, if_true]
        simp [Val.isNull, List.contains_cons, hb]
        rw [if_pos (Or.inl (eq_of_beq hb))]

/-- C9: redaction is shallow and skips nulls — sanitization is exactly one
pass over the top-level entries replacing the non-null values at the eight
sensitive keys with `[REDACTED]`; an entry whose sensitive key holds null is
returned unchanged, an entry under a non-sensitive key is returned unchanged
even when its value is a sub-map containing sensitive keys, and so is every
other entry. -/
theorem C9_sanitize_shallow_skips_null (values : List (String × Val)) :
    AuditLogService.sanitizeValues values
      = values.map (fun e =>
          if sensitiveFields.contains e.1 && !e.2.isNull
          then (e.1, Val.vstr "[REDACTED]") else e) ∧
    (∀ k, (k, Val.vnull) ∈ values → (k, Val.vnull) ∈ AuditLogService.sanitizeValues values) ∧
    (∀ k sub, sensitiveFields.contains k = false →
      (k, Val.vmap sub) ∈ values → (k, Val.vmap sub) ∈ AuditLogService.sanitizeValues values) := by
  refine ⟨foldl_redactField sensitiveFields values, fun k hk => ?_, fun k sub hks hk => ?_⟩
  · rw [show AuditLogService.sanitizeValues values
        = values.map (fun e =>
            if sensitiveFields.contains e.1 && !e.2.isNull
            then (e.1, Val.vstr "[REDACTED]") else e)
        from foldl_redactField sensitiveFields values]
    have : (k, Val.vnull)
        = (fun e : String × Val =>
            if sensitiveFields.contains e.1 && !e.2.isNull
            then (e.1, Val.vstr "[REDACTED]") else e) (k, Val.vnull) := by
      simp [Val.isNull]
    rw [this]
    exact List.mem_map_of_mem _ hk
  · rw [show AuditLogService.sanitizeValues values
        = values.map (fun e =>
            if sensitiveFields.contains e.1 && !e.2.isNull
            then (e.1, Val.vstr "[REDACTED]") else e)
        from foldl_redactField sensitiveFields values]
    have : (k, Val.vmap sub)
        = (fun e : String × Val =>
            if sensitiveFields.contains e.1 && !e.2.isNull
            then (e.1, Val.vstr "[REDACTED]") else e) (k, Val.vmap sub) := by
      simp [show k ∉ sensitiveFields from by simpa using hks]
    rw [this]
    exact List.mem_map_of_mem _ hk

/-- Value map exercising every redaction case: a non-null sensitive key, a
null sensitive key, and a sub-map with a sensitive key under a non-sensitive
key. -/
def c9Values : List (String × Val) :=
  [("password", Val.vstr "secret123"),
   ("token", Val.vnull),
   ("meta", Val.vmap [("password", Val.vstr "inner")]),
   ("name", Val.vstr "new")]

/-- C9 witness: on `c9Values` the password is redacted while the null token,
the nested password and the plain name survive unchanged. -/
theorem C9_witness :
    AuditLogService.sanitizeValues c9Values
      = [("password", Val.vstr "[REDACTED]"),
         ("token", Val.vnull),
         ("meta", Val.vmap [("password", Val.vstr "inner")]),
         ("name", Val.vstr "new")] ∧
    ("token", Val.vnull) ∈ AuditLogService.sanitizeValues c9Values ∧
    ("meta", Val.vmap [("password", Val.vstr "inner")])
        ∈ AuditLogService.sanitizeValues c9Values :=
  ⟨rfl,
   (C9_sanitize_shallow_skips_null c9Values).2.1 "token"
     (List.Mem.tail _ (List.Mem.head _)),
   (C9_sanitize_shallow_skips_null c9Values).2.2 "meta" [("password", Val.vstr "inner")]
     rfl (List.Mem.tail _ (List.Mem.tail _ (List.Mem.head _)))⟩

/-- A fixed request context for the audit-log examples. -/
def c5Req : HttpRequest :=
  { user := some 1, method := "PUT", path := "api/users/1",
    routeParams := [("user", 1)], body := [],
    ip := "127.0.0.1", userAgent := "jest" }

/-- C5 counterexample: logging an update whose old-values map carries `null`
at the sensitive key `token` persists that entry unredacted — the value
present at a sensitive key is not replaced with the marker, because the
sanitizer's `isset` test skips null values. -/
theorem C5_counterexample :
    (AuditLogService.logUpdate c5Req "users" 1 [("token", Val.vnull)]
        [("password", Val.vstr "secret123"), ("name", Val.vstr "new")]).old_values
      = some [("token", Val.vnull)] ∧
    Val.vnull ≠ Val.vstr "[REDACTED]" :=
  ⟨rfl, fun h => nomatch h⟩

/-- C5 (amended): before the entry is persisted by `logUpdate`, every
*non-null* value at one of the eight sensitive keys in the old-values map
and, independently, in the new-values map is replaced with `[REDACTED]`,
and every other entry — including a sensitive key holding null — keeps its
original value. -/
theorem C5_logUpdate_redacts_both_maps (req : HttpRequest) (resource : String)
    (rid : Int) (oldValues newValues : List (String × Val)) :
    (AuditLogService.logUpdate req resource rid oldValues newValues).old_values
      = some (oldValues.map (fun e =>
          if sensitiveFields.contains e.1 && !e.2.isNull
          then (e.1, Val.vstr "[REDACTED]") else e)) ∧
    (AuditLogService.logUpdate req resource rid oldValues newValues).new_values
      = some (newValues.map (fun e =>
          if sensitiveFields.contains e.1 && !e.2.isNull
          then (e.1, Val.vstr "[REDACTED]") else e)) :=
  ⟨congrArg some (foldl_redactField sensitiveFields oldValues),
   congrArg some (foldl_redactField sensitiveFields newValues)⟩

/-- The response the core hands back to the transport layer: HTTP status and
the decoded JSON body. -/
structure HttpResponse where
  status : Nat
  jsonData : Option (List (String × Val))

namespace AuditLogger

/-- `$loggableMethods` of the middleware. -/
def loggableMethods : List String := ["POST", "PUT", "PATCH", "DELETE"]

/-- `$excludedRoutes` of the middleware. -/
def excludedRoutes : List String :=
  ["api/auth/login", "api/auth/logout", "api/auth/register"]

/-- `AuditLogger::shouldLog`: the early-return-false chain — authenticated
principal, loggable method, path not starting with an excluded route, and a
2xx response status. -/
def shouldLog (req : HttpRequest) (response : HttpResponse) : Bool :=
  !req.user.isNone
    && loggableMethods.contains req.method
    && !(excludedRoutes.any (fun r => String.isPrefixOf r req.path))
    && !(response.status < 200 || 300 ≤ response.status)

/-- `AuditLogger::determineAction`: dispatch on the HTTP method. -/
def determineAction (req : HttpRequest) : String :=
  if req.method == "POST" then "create"
  else if req.method == "PUT" || req.method == "PATCH" then "update"
  else if req.method == "DELETE" then "delete"
  else req.method.toLower

/-- `AuditLogger::determineResource`: first path segment after an optional
`api` prefix, else `unknown`. -/
def determineResource (req : HttpRequest) : String :=
  let segments := (req.path.splitOn "/").filter (fun s => s != "")
  let segments :=
    match segments with
    | "api" :: rest => rest
    | s => s
  match segments with
  | [] => "unknown"
  | s :: _ => s

/-- The foreach over nested response keys in `determineResourceId`. -/
def nestedResourceId (d : List (String × Val)) : Option Int :=
  ["user", "role", "permission", "setting"].foldl
    (fun acc key =>
      match acc with
      | some v => some v
      | none =>
          match d.lookup key with
          | some (Val.vmap sub) =>
              match sub.lookup "id" with
              | some (Val.vint i) => some i
              | _ => none
          | _ => none)
    none

/-- The POST branch of `determineResourceId`: read `data.id` (or a nested
`data.{user,role,permission,setting}.id`) from the decoded response body. -/
def responseResourceId (req : HttpRequest) (response : HttpResponse) : Option Int :=
  if req.method == "POST" then
    match response.jsonData with
    | none => none
    | some data =>
        match data.lookup "data" with
        | some (Val.vmap d) =>
            match d.lookup "id" with
            | some (Val.vint i) => some i
            | _ => nestedResourceId d
        | _ => none
  else none

/-- `AuditLogger::determineResourceId`: a truthy `id`/`user`/`role` route
parameter wins, otherwise fall through to the response body. -/
def determineResourceId (req : HttpRequest) (response : HttpResponse) : Option Int :=
  match (req.routeParams.lookup "id").orElse
      (fun _ => (req.routeParams.lookup "user").orElse
        (fun _ => req.routeParams.lookup "role")) with
  | some rid => if rid != 0 then some rid else responseResourceId req response
  | none => responseResourceId req response

/-- `AuditLogger::sanitizeRequestData`: the same loop over the same eight
sensitive field names as `AuditLogService::sanitizeValues`. -/
def sanitizeRequestData (data : List (String × Val)) : List (String × Val) :=
  sensitiveFields.foldl redactField data

/-- `AuditLogger::logAction`: append one entry built from the request and the
response, with the request body sanitized into `new_values`. -/
def logAction (req : HttpRequest) (response : HttpResponse) : AuditLog :=
  AuditLogService.log req (determineAction req) (determineResource req)
    (determineResourceId req response)
    { ip_address := some req.ip
    , user_agent := some req.userAgent
    , new_values := some (sanitizeRequestData req.body) }

/-- `AuditLogger::handle`: run the inner handler first, then append one audit
entry exactly when `shouldLog` accepts the request/response pair. -/
def handle (req : HttpRequest) (next : HttpRequest → HttpResponse)
    (entries : List AuditLog) : HttpResponse × List AuditLog :=
  let response := next req
  if shouldLog req response then
    (response, entries ++ [logAction req response])
  else
    (response, entries)

end AuditLogger

/-- C8: the audit middleware appends an entry only when the principal is
authenticated, the HTTP method is one of the mutating four, the path does not
start with an excluded route, and the response produced by the inner handler
has a 2xx status — in particular no entry is written for a request whose
mutation did not complete successfully. -/
theorem C8_audit_only_on_success (req : HttpRequest)
    (next : HttpRequest → HttpResponse) (entries : List AuditLog)
    (hgrow : entries.length < (AuditLogger.handle req next entries).2.length) :
    req.user.isSome = true ∧
    AuditLogger.loggableMethods.contains req.method = true ∧
    AuditLogger.excludedRoutes.any (fun r => String.isPrefixOf r req.path) = false ∧
    200 ≤ (next req).status ∧ (next req).status < 300 := by
  cases hSL : AuditLogger.shouldLog req (next req) with
  | false =>
    exfalso
    have hent : (AuditLogger.handle req next entries).2 = entries := by
      simp [AuditLogger.handle, hSL]
    rw [hent] at hgrow
    omega
  | true =>
    unfold AuditLogger.shouldLog at hSL
    simp only [Bool.and_eq_true, Bool.not_eq_true', Bool.or_eq_false_iff,
      decide_eq_false_iff_not, not_lt, not_le] at hSL
    obtain ⟨⟨⟨h1, h2⟩, h3⟩, h4, h5⟩ := hSL
    have h1' : req.user.isSome = true := by
      cases hu : req.user <;> simp [hu] at h1 ⊢
    exact ⟨h1', h2, h3, h4, by omega⟩

/-- A successful authenticated POST to `users`. -/
def c8Req : HttpRequest :=
  { user := some 1, method := "POST", path := "users", routeParams := []
  , body := [("name", Val.vstr "bob"), ("password", Val.vstr "secret123")]
  , ip := "10.0.0.1", userAgent := "jest" }

/-- The inner handler's 201 response for the C8 example. -/
def c8Next : HttpRequest → HttpResponse :=
  fun _ => { status := 201, jsonData := some [("data", Val.vmap [("id", Val.vint 7)])] }

/-- C8 witness: the middleware theorem applied to a logged request — the four
conditions hold of it. -/
theorem C8_witness :
    c8Req.user.isSome = true ∧
    AuditLogger.loggableMethods.contains c8Req.method = true ∧
    AuditLogger.excludedRoutes.any (fun r => String.isPrefixOf r c8Req.path) = false ∧
    200 ≤ (c8Next c8Req).status ∧ (c8Next c8Req).status < 300 :=
  C8_audit_only_on_success c8Req c8Next []
    (by
      have hsl : AuditLogger.shouldLog c8Req (c8Next c8Req) = true := by decide
      simp [AuditLogger.handle, hsl])

end ERP
